import Mathlib

/-
Verification of graphite.go from go-metrics-graphite.

The file embeds the serializer and flush-cycle logic of graphite.go as
executable Lean definitions and proves the spec's claims about them.

Modelling conventions:
* Go float64 values are modelled by `FloatVal`, an exact (unnormalized)
  fraction of machine-unbounded integers.  All float64 values reaching the
  formatting verbs in graphite.go are quotients/products of exactly
  representable integers and small decimal constants, for which exact
  rational arithmetic agrees with IEEE-754 double arithmetic at the printed
  precision (checked for the percentile constants 0.5, 0.75, 0.95, 0.99,
  0.999, where p*100 is exact in float64).
* Go int64 values are modelled by `Int`; Go's int64 division truncates
  toward zero, which is `Int.tdiv`.
* `time.Duration` is an int64 count of nanoseconds; `time.Second = 10^9`.
* The network is modelled by the dial outcome (`Except eps Unit`) and by an
  environment `writeOk : Nat -> Bool` giving the outcome of each write;
  graphite.go discards the error results of `fmt.Fprintf` and `w.Flush()`,
  so the cycle's behaviour cannot depend on `writeOk`.
-/

/-- Exact-value model of a Go float64: the rational number `num / den`,
kept unnormalized so that all arithmetic is plain integer arithmetic. -/
structure FloatVal where
  num : Int
  den : Int
deriving DecidableEq

/-- Conversion of an integer to a float64 (`float64(n)` in Go; exact for
`|n| < 2^53`, which covers every value used by graphite.go). -/
def FloatVal.ofInt (n : Int) : FloatVal := ⟨n, 1⟩

/-- float64 division `a / b`, modelled as exact fraction division. -/
def FloatVal.div (a b : FloatVal) : FloatVal := ⟨a.num * b.den, a.den * b.num⟩

/-- float64 multiplication `a * b`, modelled as exact fraction product. -/
def FloatVal.mul (a b : FloatVal) : FloatVal := ⟨a.num * b.num, a.den * b.den⟩

/-- Sign of the modelled float64 value (negative iff num and den have
strictly opposite signs). -/
def FloatVal.isNeg (x : FloatVal) : Bool := decide (x.num < 0) != decide (x.den < 0)

/-- Round `a / d` (with `d > 0`) to the nearest integer, ties to even --
the rounding performed by Go's strconv/fmt fixed-precision verbs. -/
def roundHalfEvenNat (a d : Nat) : Nat :=
  let f := a / d
  let r2 := 2 * (a % d)
  if r2 < d then f
  else if d < r2 then f + 1
  else if f % 2 = 0 then f else f + 1

/-- Left-pad a digit string with zeros up to width `k`. -/
def padZeros (s : String) (k : Nat) : String :=
  String.mk (List.replicate (k - s.length) '0') ++ s

/-- Go's fixed-precision float verb: `%.2f` is `fmtFixed 2`, `%f` (default
precision 6) is `fmtFixed 6`. -/
def fmtFixed (prec : Nat) (x : FloatVal) : String :=
  let sign := if x.isNeg then "-" else ""
  let n := roundHalfEvenNat (x.num.natAbs * 10 ^ prec) x.den.natAbs
  if prec = 0 then sign ++ toString n
  else sign ++ toString (n / 10 ^ prec) ++ "." ++ padZeros (toString (n % 10 ^ prec)) prec

/-- Decimal digits of the fractional part `a / d` (`a < d`), produced until
the expansion terminates, with fuel. -/
def fracDigitsNat : Nat → Nat → Nat → List Nat
  | _, _, 0 => []
  | a, d, fuel + 1 =>
    if a = 0 then []
    else (a * 10) / d :: fracDigitsNat ((a * 10) % d) d fuel

/-- Model of `strconv.FormatFloat(x, 'f', -1, 64)`: the minimal-digit
fixed-notation decimal rendering of the value.  Faithful for values whose
decimal expansion terminates within 64 fractional digits (every percentile
constant does). -/
def formatFloatMinimal (x : FloatVal) : String :=
  let sign := if x.isNeg then "-" else ""
  let a := x.num.natAbs
  let d := x.den.natAbs
  let ds := fracDigitsNat (a % d) d 64
  if ds.isEmpty then sign ++ toString (a / d)
  else sign ++ toString (a / d) ++ "." ++ String.mk (ds.map Nat.digitChar)

/-- Drop the first occurrence of character `c` from a character list. -/
def replaceFirstChar (c : Char) : List Char → List Char
  | [] => []
  | x :: xs => if x = c then xs else x :: replaceFirstChar c xs

/-- Model of `strings.Replace(s, ".", "", 1)`: delete the first `.` only. -/
def stringsReplaceDotOnce (s : String) : String :=
  String.mk (replaceFirstChar '.' s.data)

/-- graphite.go lines 87/108: the percentile key,
`strings.Replace(strconv.FormatFloat(psKey*100.0, 'f', -1, 64), ".", "", 1)`. -/
def pctKey (p : FloatVal) : String :=
  stringsReplaceDotOnce (formatFloatMinimal (FloatVal.mul p (FloatVal.ofInt 100)))

/-- graphite.go lines 128-139, `splitNameAndTags`: a name containing a
semicolon is split at the first one (`strings.SplitN(name, ";", 2)` yields
the part before the first `;` and everything after it), and the tag string
is the semicolon plus the remainder; otherwise the tags are empty. -/
def splitNameAndTags (name : String) : String × String :=
  if name.data.contains ';' then
    (String.mk (name.data.takeWhile (fun ch => ch != ';')),
     String.mk (';' :: (name.data.dropWhile (fun ch => ch != ';')).tail))
  else (name, "")

/-- Snapshot of a go-metrics Histogram (count, min, max, mean, std-dev and
the on-demand percentile query `Percentiles`). -/
structure HistogramSnapshot where
  count : Int
  min : Int
  max : Int
  mean : FloatVal
  stdDev : FloatVal
  percentile : FloatVal → FloatVal

/-- Snapshot of a go-metrics Meter (count and the 1/5/15-minute and mean
rates). -/
structure MeterSnapshot where
  count : Int
  rate1 : FloatVal
  rate5 : FloatVal
  rate15 : FloatVal
  rateMean : FloatVal

/-- Snapshot of a go-metrics Timer (duration histogram fused with an
event-rate meter). -/
structure TimerSnapshot where
  count : Int
  min : Int
  max : Int
  mean : FloatVal
  stdDev : FloatVal
  percentile : FloatVal → FloatVal
  rate1 : FloatVal
  rate5 : FloatVal
  rate15 : FloatVal
  rateMean : FloatVal

/-- The kind-tagged metric value yielded by `Registry.Each`; `unknown`
stands for any dynamic type outside the five recognized interfaces and
carries the `%T` rendering of that type. -/
inductive Metric where
  | counter (count : Int)
  | gauge (value : Int)
  | gaugeFloat64 (value : FloatVal)
  | histogram (h : HistogramSnapshot)
  | meter (m : MeterSnapshot)
  | timer (t : TimerSnapshot)
  | unknown (typeName : String)

/-- graphite.go lines 17-24, `Config`.  The network address is represented
by the dial outcome passed to `graphite`; the registry is the ordered list
of (raw name, snapshot) pairs its `Each` enumerates.  `flushInterval` and
`durationUnit` are `time.Duration` values, i.e. int64 nanosecond counts.
`pfx` is the Go field `Prefix`. -/
structure Config where
  registry : List (String × Metric)
  flushInterval : Int
  durationUnit : Int
  pfx : String
  percentiles : List FloatVal

/-- One wire line `fmt.Fprintf(w, "%s.%s.<field><tags> <value> %d\n", ...)`. -/
def line (p name field tags value : String) (now : Int) : String :=
  p ++ "." ++ name ++ "." ++ field ++ tags ++ " " ++ value ++ " " ++ toString now ++ "\n"

/-- Body of the `Registry.Each` callback (graphite.go lines 67-117): the
lines written for one metric together with the diagnostic-sink messages.
`flushSeconds` is `float64(c.FlushInterval) / float64(time.Second)` and
`du` is `float64(c.DurationUnit)`; `int64(du)` recovers `c.DurationUnit`
exactly.  Go's `h.Percentiles(list)` returns the value at each requested
fraction, modelled by mapping the snapshot's percentile query over the
configured list. -/
def serializeMetric (c : Config) (now : Int) (rawName : String) (m : Metric) :
    List String × List String :=
  let nt := splitNameAndTags rawName
  let name := nt.1
  let tags := nt.2
  let flushSeconds := FloatVal.div (FloatVal.ofInt c.flushInterval) (FloatVal.ofInt 1000000000)
  match m with
  | .counter count =>
    ([line c.pfx name "count" tags (toString count) now,
      line c.pfx name "count_ps" tags (fmtFixed 2 (FloatVal.div (FloatVal.ofInt count) flushSeconds)) now],
     [])
  | .gauge v =>
    ([line c.pfx name "value" tags (toString v) now], [])
  | .gaugeFloat64 v =>
    ([line c.pfx name "value" tags (fmtFixed 6 v) now], [])
  | .histogram h =>
    ([line c.pfx name "count" tags (toString h.count) now,
      line c.pfx name "min" tags (toString h.min) now,
      line c.pfx name "max" tags (toString h.max) now,
      line c.pfx name "mean" tags (fmtFixed 2 h.mean) now,
      line c.pfx name "std-dev" tags (fmtFixed 2 h.stdDev) now]
     ++ c.percentiles.map (fun p =>
          line c.pfx name (pctKey p ++ "-percentile") tags (fmtFixed 2 (h.percentile p)) now),
     [])
  | .meter mt =>
    ([line c.pfx name "count" tags (toString mt.count) now,
      line c.pfx name "one-minute" tags (fmtFixed 2 mt.rate1) now,
      line c.pfx name "five-minute" tags (fmtFixed 2 mt.rate5) now,
      line c.pfx name "fifteen-minute" tags (fmtFixed 2 mt.rate15) now,
      line c.pfx name "mean" tags (fmtFixed 2 mt.rateMean) now],
     [])
  | .timer t =>
    ([line c.pfx name "count" tags (toString t.count) now,
      line c.pfx name "count_ps" tags (fmtFixed 2 (FloatVal.div (FloatVal.ofInt t.count) flushSeconds)) now,
      line c.pfx name "min" tags (toString (Int.tdiv t.min c.durationUnit)) now,
      line c.pfx name "max" tags (toString (Int.tdiv t.max c.durationUnit)) now,
      line c.pfx name "mean" tags (fmtFixed 2 (FloatVal.div t.mean (FloatVal.ofInt c.durationUnit))) now,
      line c.pfx name "std-dev" tags (fmtFixed 2 (FloatVal.div t.stdDev (FloatVal.ofInt c.durationUnit))) now]
     ++ c.percentiles.map (fun p =>
          line c.pfx name (pctKey p ++ "-percentile") tags
            (fmtFixed 2 (FloatVal.div (t.percentile p) (FloatVal.ofInt c.durationUnit))) now)
     ++ [line c.pfx name "one-minute" tags (fmtFixed 2 t.rate1) now,
         line c.pfx name "five-minute" tags (fmtFixed 2 t.rate5) now,
         line c.pfx name "fifteen-minute" tags (fmtFixed 2 t.rate15) now,
         line c.pfx name "mean-rate" tags (fmtFixed 2 t.rateMean) now],
     [])
  | .unknown typeName =>
    ([], ["unable to record metric of type " ++ typeName])

/-- The `Registry.Each` loop: lines and diagnostic messages accumulated over
the enumeration, in enumeration order. -/
def eachAll (c : Config) (now : Int) : List (String × Metric) → List String × List String
  | [] => ([], [])
  | nm :: rest =>
    let cur := serializeMetric c now nm.1 nm.2
    let rec2 := eachAll c now rest
    (cur.1 ++ rec2.1, cur.2 ++ rec2.2)

/-- graphite.go lines 57-121, `graphite`: one flush cycle.  `now` is the
epoch-seconds value captured once at the start of the cycle; `dial` is the
outcome of `net.DialTCP`; `writeOk` gives the outcome of each buffered
write/flush, whose error results graphite.go discards.  Returns the cycle
result together with the lines written to the buffered writer and the
diagnostic-sink messages. -/
def graphite (eps : Type) (c : Config) (now : Int) (dial : Except eps Unit)
    (_writeOk : Nat → Bool) : Except eps Unit × (List String × List String) :=
  match dial with
  | .error e => (.error e, ([], []))
  | .ok _ => (.ok (), eachAll c now c.registry)

/-- graphite.go lines 53-55, `Once`: a single flush cycle, returning a
non-nil error on failed connections. -/
def Once (eps : Type) (c : Config) (now : Int) (dial : Except eps Unit)
    (writeOk : Nat → Bool) : Except eps Unit × (List String × List String) :=
  graphite eps c now dial writeOk

lemma dropWhile_head_semicolon (l : List Char) (h : ';' ∈ l) :
    l.dropWhile (fun ch => ch != ';') = ';' :: (l.dropWhile (fun ch => ch != ';')).tail := by
  induction l with
  | nil => simp at h
  | cons a as ih =>
    by_cases ha : a = ';'
    · subst ha
      simp [List.dropWhile_cons]
    · rw [List.dropWhile_cons_of_pos (by simp [ha])]
      refine ih ?_
      rcases List.mem_cons.mp h with h1 | h1
      · exact absurd h1.symm ha
      · exact h1

lemma serializeMetric_line_shape (c : Config) (now : Int) (raw : String) (m : Metric)
    (l : String) (hl : l ∈ (serializeMetric c now raw m).1) :
    ∃ field value, l =
      c.pfx ++ "." ++ (splitNameAndTags raw).1 ++ "." ++ field ++ (splitNameAndTags raw).2
        ++ " " ++ value ++ " " ++ toString now ++ "\n" := by
  cases m with
  | counter count =>
    rcases List.mem_cons.mp hl with rfl | hl
    · exact ⟨"count", _, rfl⟩
    rcases List.mem_cons.mp hl with rfl | hl
    · exact ⟨"count_ps", _, rfl⟩
    · simp at hl
  | gauge v =>
    rcases List.mem_cons.mp hl with rfl | hl
    · exact ⟨"value", _, rfl⟩
    · simp at hl
  | gaugeFloat64 v =>
    rcases List.mem_cons.mp hl with rfl | hl
    · exact ⟨"value", _, rfl⟩
    · simp at hl
  | histogram h =>
    rcases List.mem_append.mp hl with hl | hl
    · rcases List.mem_cons.mp hl with rfl | hl
      · exact ⟨"count", _, rfl⟩
      rcases List.mem_cons.mp hl with rfl | hl
      · exact ⟨"min", _, rfl⟩
      rcases List.mem_cons.mp hl with rfl | hl
      · exact ⟨"max", _, rfl⟩
      rcases List.mem_cons.mp hl with rfl | hl
      · exact ⟨"mean", _, rfl⟩
      rcases List.mem_cons.mp hl with rfl | hl
      · exact ⟨"std-dev", _, rfl⟩
      · simp at hl
    · rcases List.mem_map.mp hl with ⟨p, _, heq⟩
      exact ⟨pctKey p ++ "-percentile", fmtFixed 2 (h.percentile p), heq.symm⟩
  | meter mt =>
    rcases List.mem_cons.mp hl with rfl | hl
    · exact ⟨"count", _, rfl⟩
    rcases List.mem_cons.mp hl with rfl | hl
    · exact ⟨"one-minute", _, rfl⟩
    rcases List.mem_cons.mp hl with rfl | hl
    · exact ⟨"five-minute", _, rfl⟩
    rcases List.mem_cons.mp hl with rfl | hl
    · exact ⟨"fifteen-minute", _, rfl⟩
    rcases List.mem_cons.mp hl with rfl | hl
    · exact ⟨"mean", _, rfl⟩
    · simp at hl
  | timer t =>
    rcases List.mem_append.mp hl with hl | hl
    rotate_left
    · rcases List.mem_cons.mp hl with rfl | hl
      · exact ⟨"one-minute", _, rfl⟩
      rcases List.mem_cons.mp hl with rfl | hl
      · exact ⟨"five-minute", _, rfl⟩
      rcases List.mem_cons.mp hl with rfl | hl
      · exact ⟨"fifteen-minute", _, rfl⟩
      rcases List.mem_cons.mp hl with rfl | hl
      · exact ⟨"mean-rate", _, rfl⟩
      · simp at hl
    rcases List.mem_append.mp hl with hl | hl
    · rcases List.mem_cons.mp hl with rfl | hl
      · exact ⟨"count", _, rfl⟩
      rcases List.mem_cons.mp hl with rfl | hl
      · exact ⟨"count_ps", _, rfl⟩
      rcases List.mem_cons.mp hl with rfl | hl
      · exact ⟨"min", _, rfl⟩
      rcases List.mem_cons.mp hl with rfl | hl
      · exact ⟨"max", _, rfl⟩
      rcases List.mem_cons.mp hl with rfl | hl
      · exact ⟨"mean", _, rfl⟩
      rcases List.mem_cons.mp hl with rfl | hl
      · exact ⟨"std-dev", _, rfl⟩
      · simp at hl
    · rcases List.mem_map.mp hl with ⟨p, _, heq⟩
      exact ⟨pctKey p ++ "-percentile", fmtFixed 2 (FloatVal.div (t.percentile p) (FloatVal.ofInt c.durationUnit)), heq.symm⟩
  | unknown tn => simp [serializeMetric] at hl

lemma eachAll_lines_mem (c : Config) (now : Int) (rs : List (String × Metric)) (l : String)
    (hl : l ∈ (eachAll c now rs).1) :
    ∃ nm, nm ∈ rs ∧ l ∈ (serializeMetric c now nm.1 nm.2).1 := by
  induction rs with
  | nil => simp [eachAll] at hl
  | cons a as ih =>
    rcases List.mem_append.mp hl with h1 | h1
    · exact ⟨a, List.mem_cons_self a as, h1⟩
    · rcases ih h1 with ⟨nm, hnm, hmem⟩
      exact ⟨nm, List.mem_cons_of_mem a hnm, hmem⟩

lemma eachAll_append (c : Config) (now : Int) (xs ys : List (String × Metric)) :
    eachAll c now (xs ++ ys) =
      ((eachAll c now xs).1 ++ (eachAll c now ys).1,
       (eachAll c now xs).2 ++ (eachAll c now ys).2) := by
  induction xs with
  | nil => simp [eachAll]
  | cons a as ih => simp [eachAll, ih, List.append_assoc]

/-- C1 counterexample: the percentile key emitted for fraction 0.95 is
"95", not "950", and for fraction 0.999 it is "999", not "9990". -/
theorem percentile_key_claim_counterexample :
    pctKey ⟨19, 20⟩ = "95" ∧ pctKey ⟨19, 20⟩ ≠ "950"
    ∧ pctKey ⟨999, 1000⟩ = "999" ∧ pctKey ⟨999, 1000⟩ ≠ "9990" := by
  decide

/-- C1 (amended): for every configured percentile fraction p, the emitted
percentile key is the minimal-digit decimal rendering of p*100 with the
first '.' character removed; in particular fraction 0.5 yields "50",
fraction 0.95 yields "95", and fraction 0.999 yields "999". -/
theorem percentile_key_rule :
    (∀ (c : Config) (now : Int) (raw : String) (h : HistogramSnapshot),
      ((serializeMetric c now raw (Metric.histogram h)).1.drop 5) =
        c.percentiles.map (fun p =>
          line c.pfx (splitNameAndTags raw).1
            (stringsReplaceDotOnce (formatFloatMinimal (FloatVal.mul p (FloatVal.ofInt 100)))
              ++ "-percentile")
            (splitNameAndTags raw).2 (fmtFixed 2 (h.percentile p)) now))
    ∧ pctKey ⟨1, 2⟩ = "50" ∧ pctKey ⟨19, 20⟩ = "95" ∧ pctKey ⟨999, 1000⟩ = "999" :=
  ⟨fun _ _ _ _ => rfl, by decide⟩

/-- C9: a Histogram emits, in order, count, min, max, mean, std-dev and then
one percentile line per configured fraction, following the configured list
order; the concrete conjunct shows the order [0.99, 0.5] is kept as emitted
keys ["99", "50"], not sorted by value. -/
theorem histogram_line_order :
    (∀ (c : Config) (now : Int) (raw : String) (h : HistogramSnapshot),
      (serializeMetric c now raw (Metric.histogram h)).1 =
        [line c.pfx (splitNameAndTags raw).1 "count" (splitNameAndTags raw).2 (toString h.count) now,
         line c.pfx (splitNameAndTags raw).1 "min" (splitNameAndTags raw).2 (toString h.min) now,
         line c.pfx (splitNameAndTags raw).1 "max" (splitNameAndTags raw).2 (toString h.max) now,
         line c.pfx (splitNameAndTags raw).1 "mean" (splitNameAndTags raw).2 (fmtFixed 2 h.mean) now,
         line c.pfx (splitNameAndTags raw).1 "std-dev" (splitNameAndTags raw).2 (fmtFixed 2 h.stdDev) now]
        ++ c.percentiles.map (fun p =>
             line c.pfx (splitNameAndTags raw).1 (pctKey p ++ "-percentile")
               (splitNameAndTags raw).2 (fmtFixed 2 (h.percentile p)) now))
    ∧ ([⟨99, 100⟩, ⟨1, 2⟩] : List FloatVal).map pctKey = ["99", "50"] :=
  ⟨fun _ _ _ _ => rfl, by decide⟩

/-- C2: a Timer emits min and max as the raw duration integers divided by
the duration unit with truncating integer division, mean, std-dev and every
percentile value as the raw floats divided by the duration unit with
floating-point division, and the four rate lines with no unit conversion;
the concrete conjunct has raw min 1500000, mean 1500000 and unit 1000000,
giving emitted min "1" (integer division) but mean "1.50" (float division)
and unconverted rates. -/
theorem timer_unit_conversion :
    (∀ (c : Config) (now : Int) (raw : String) (t : TimerSnapshot),
      (serializeMetric c now raw (Metric.timer t)).1 =
        [line c.pfx (splitNameAndTags raw).1 "count" (splitNameAndTags raw).2 (toString t.count) now,
         line c.pfx (splitNameAndTags raw).1 "count_ps" (splitNameAndTags raw).2
           (fmtFixed 2 (FloatVal.div (FloatVal.ofInt t.count)
             (FloatVal.div (FloatVal.ofInt c.flushInterval) (FloatVal.ofInt 1000000000)))) now,
         line c.pfx (splitNameAndTags raw).1 "min" (splitNameAndTags raw).2
           (toString (Int.tdiv t.min c.durationUnit)) now,
         line c.pfx (splitNameAndTags raw).1 "max" (splitNameAndTags raw).2
           (toString (Int.tdiv t.max c.durationUnit)) now,
         line c.pfx (splitNameAndTags raw).1 "mean" (splitNameAndTags raw).2
           (fmtFixed 2 (FloatVal.div t.mean (FloatVal.ofInt c.durationUnit))) now,
         line c.pfx (splitNameAndTags raw).1 "std-dev" (splitNameAndTags raw).2
           (fmtFixed 2 (FloatVal.div t.stdDev (FloatVal.ofInt c.durationUnit))) now]
        ++ c.percentiles.map (fun p =>
             line c.pfx (splitNameAndTags raw).1 (pctKey p ++ "-percentile")
               (splitNameAndTags raw).2
               (fmtFixed 2 (FloatVal.div (t.percentile p) (FloatVal.ofInt c.durationUnit))) now)
        ++ [line c.pfx (splitNameAndTags raw).1 "one-minute" (splitNameAndTags raw).2
              (fmtFixed 2 t.rate1) now,
            line c.pfx (splitNameAndTags raw).1 "five-minute" (splitNameAndTags raw).2
              (fmtFixed 2 t.rate5) now,
            line c.pfx (splitNameAndTags raw).1 "fifteen-minute" (splitNameAndTags raw).2
              (fmtFixed 2 t.rate15) now,
            line c.pfx (splitNameAndTags raw).1 "mean-rate" (splitNameAndTags raw).2
              (fmtFixed 2 t.rateMean) now])
    ∧ (serializeMetric ⟨[], 2000000000, 1000000, "p", [⟨1, 2⟩]⟩ 7 "t1"
        (Metric.timer ⟨3, 1500000, 2500000, ⟨1500000, 1⟩, ⟨250000, 1⟩,
          fun _ => ⟨1230000, 1⟩, ⟨5, 2⟩, ⟨1, 2⟩, ⟨1, 4⟩, ⟨5, 4⟩⟩)).1 =
      ["p.t1.count 3 7\n", "p.t1.count_ps 1.50 7\n", "p.t1.min 1 7\n", "p.t1.max 2 7\n",
       "p.t1.mean 1.50 7\n", "p.t1.std-dev 0.25 7\n", "p.t1.50-percentile 1.23 7\n",
       "p.t1.one-minute 2.50 7\n", "p.t1.five-minute 0.50 7\n", "p.t1.fifteen-minute 0.25 7\n",
       "p.t1.mean-rate 1.25 7\n"] :=
  ⟨fun _ _ _ _ => rfl, by decide⟩

/-- C7: a Counter emits exactly two lines, count with the raw integer and
count_ps with count divided by the flush interval in seconds at two decimal
places; with count 42 and a 10-second flush interval the lines are
"p.nm.count 42 99" and "p.nm.count_ps 4.20 99". -/
theorem counter_emission :
    (∀ (c : Config) (now : Int) (raw : String) (count : Int),
      serializeMetric c now raw (Metric.counter count) =
        ([line c.pfx (splitNameAndTags raw).1 "count" (splitNameAndTags raw).2 (toString count) now,
          line c.pfx (splitNameAndTags raw).1 "count_ps" (splitNameAndTags raw).2
            (fmtFixed 2 (FloatVal.div (FloatVal.ofInt count)
              (FloatVal.div (FloatVal.ofInt c.flushInterval) (FloatVal.ofInt 1000000000)))) now],
         []))
    ∧ (serializeMetric ⟨[], 10000000000, 1000000, "p", []⟩ 99 "nm" (Metric.counter 42)).1 =
        ["p.nm.count 42 99\n", "p.nm.count_ps 4.20 99\n"] :=
  ⟨fun _ _ _ _ => rfl, by decide⟩

/-- C3: a raw name without a semicolon passes through unchanged with empty
tags; a name with semicolons splits at the first one, the tags being a
semicolon plus the remainder; and every emitted line places the tag string
immediately after the field suffix. -/
theorem name_tag_split_emission :
    (∀ raw : String, ';' ∉ raw.data → splitNameAndTags raw = (raw, ""))
    ∧ splitNameAndTags "disk.used;datacenter=dc1;rack=a1;server=web01" =
        ("disk.used", ";datacenter=dc1;rack=a1;server=web01")
    ∧ ∀ (c : Config) (now : Int) (raw : String) (m : Metric) (l : String),
        l ∈ (serializeMetric c now raw m).1 →
        ∃ field value, l =
          c.pfx ++ "." ++ (splitNameAndTags raw).1 ++ "." ++ field ++ (splitNameAndTags raw).2
            ++ " " ++ value ++ " " ++ toString now ++ "\n" := by
  refine ⟨?_, by decide, fun c now raw m l hl => serializeMetric_line_shape c now raw m l hl⟩
  intro raw hns
  rw [splitNameAndTags, if_neg (fun hc => hns (List.elem_iff.mp hc))]

/-- C3 witness: the theorem applied to the semicolon-free name "disk.used"
and to one concrete emitted gauge line. -/
theorem name_tag_split_emission_witness :
    splitNameAndTags "disk.used" = ("disk.used", "")
    ∧ ∃ field value, "p.g.value 7 99\n" =
        "p" ++ "." ++ (splitNameAndTags "g").1 ++ "." ++ field ++ (splitNameAndTags "g").2
          ++ " " ++ value ++ " " ++ toString (99 : Int) ++ "\n" :=
  ⟨name_tag_split_emission.1 "disk.used" (by decide),
   name_tag_split_emission.2.2 ⟨[], 10, 1, "p", []⟩ 99 "g" (Metric.gauge 7)
     "p.g.value 7 99\n" (by decide)⟩

/-- C4: every line produced within one flush cycle ends with the single
epoch-seconds timestamp captured at the start of that cycle. -/
theorem uniform_timestamp (eps : Type) (c : Config) (now : Int)
    (dial : Except eps Unit) (writeOk : Nat → Bool) (l : String)
    (hl : l ∈ (graphite eps c now dial writeOk).2.1) :
    ∃ s, l = s ++ " " ++ toString now ++ "\n" := by
  cases dial with
  | error e => simp [graphite] at hl
  | ok u =>
    rcases eachAll_lines_mem c now c.registry l hl with ⟨nm, _, hmem⟩
    rcases serializeMetric_line_shape c now nm.1 nm.2 l hmem with ⟨f, v, hshape⟩
    exact ⟨c.pfx ++ "." ++ (splitNameAndTags nm.1).1 ++ "." ++ f
      ++ (splitNameAndTags nm.1).2 ++ " " ++ v, hshape⟩

/-- C4 witness: the theorem applied to a concrete one-gauge cycle. -/
theorem uniform_timestamp_witness :
    ∃ s, "p.g.value 7 99\n" = s ++ " " ++ toString (99 : Int) ++ "\n" :=
  uniform_timestamp String ⟨[("g", Metric.gauge 7)], 10, 1, "p", []⟩ 99
    (Except.ok ()) (fun _ => true) "p.g.value 7 99\n" (by decide)

/-- C5: in single-shot mode a failed connection returns the distinct
non-nil failure value, and the outcome is independent of the registry, the
timestamp and the write environment -- no enumeration happens and no line
is written. -/
theorem once_connection_failure (eps : Type) (e : eps) (c c2 : Config)
    (now now2 : Int) (writeOk writeOk2 : Nat → Bool) :
    Once eps c now (Except.error e) writeOk = (Except.error e, ([], []))
    ∧ Once eps c now (Except.error e) writeOk = Once eps c2 now2 (Except.error e) writeOk2
    ∧ (Except.error e : Except eps Unit) ≠ Except.ok () :=
  ⟨rfl, rfl, fun h => Except.noConfusion h⟩

/-- C5 witness: the theorem applied at a concrete configuration. -/
theorem once_connection_failure_witness :
    Once String ⟨[("g", Metric.gauge 7)], 10, 1, "p", []⟩ 99
        (Except.error "refused") (fun _ => true) = (Except.error "refused", ([], []))
    ∧ Once String ⟨[("g", Metric.gauge 7)], 10, 1, "p", []⟩ 99
        (Except.error "refused") (fun _ => true) =
      Once String ⟨[], 20, 2, "q", []⟩ 5 (Except.error "refused") (fun _ => false)
    ∧ (Except.error "refused" : Except String Unit) ≠ Except.ok () :=
  once_connection_failure String "refused" ⟨[("g", Metric.gauge 7)], 10, 1, "p", []⟩
    ⟨[], 20, 2, "q", []⟩ 99 5 (fun _ => true) (fun _ => false)

/-- C6: once the connection is established, write or flush outcomes cannot
change the cycle's behaviour (graphite.go discards those errors), all
metrics are still serialized, and the cycle result is an error exactly when
dialing failed. -/
theorem write_failure_nonfatal (eps : Type) (c : Config) (now : Int)
    (dial : Except eps Unit) (w1 w2 : Nat → Bool) :
    graphite eps c now dial w1 = graphite eps c now dial w2
    ∧ (graphite eps c now dial w1).1 = dial
    ∧ (((graphite eps c now dial w1).1 = Except.ok ()) ↔ dial = Except.ok ())
    ∧ (graphite eps c now (Except.ok ()) w1).2.1 = (eachAll c now c.registry).1 := by
  have hfst : (graphite eps c now dial w1).1 = dial := by
    cases dial with
    | error e => rfl
    | ok u => rfl
  refine ⟨rfl, hfst, ?_, rfl⟩
  rw [hfst]

/-- C8: a metric of unrecognized kind yields zero lines and one diagnostic
message, the enumeration continues past it unchanged, and the cycle still
succeeds. -/
theorem unknown_kind_skipped :
    (∀ (c : Config) (now : Int) (raw tn : String),
      serializeMetric c now raw (Metric.unknown tn) =
        ([], ["unable to record metric of type " ++ tn]))
    ∧ (∀ (c : Config) (now : Int) (xs ys : List (String × Metric)) (nm tn : String),
        (eachAll c now (xs ++ (nm, Metric.unknown tn) :: ys)).1 =
          (eachAll c now xs).1 ++ (eachAll c now ys).1
        ∧ (eachAll c now (xs ++ (nm, Metric.unknown tn) :: ys)).2 =
          (eachAll c now xs).2 ++ ("unable to record metric of type " ++ tn) :: (eachAll c now ys).2)
    ∧ (∀ (eps : Type) (c : Config) (now : Int) (w : Nat → Bool),
        (graphite eps c now (Except.ok ()) w).1 = Except.ok ()) := by
  refine ⟨fun _ _ _ _ => rfl, ?_, fun _ _ _ _ => rfl⟩
  intro c now xs ys nm tn
  rw [eachAll_append]
  exact ⟨by simp [eachAll, serializeMetric], by simp [eachAll, serializeMetric]⟩

/-- C10: splitNameAndTags is lossless and shape-preserving: name ++ tags
recovers the input, the name holds no semicolon, and the tags are empty or
start with a semicolon. -/
theorem splitNameAndTags_lossless (s : String) :
    (splitNameAndTags s).1 ++ (splitNameAndTags s).2 = s
    ∧ ';' ∉ (splitNameAndTags s).1.data
    ∧ ((splitNameAndTags s).2 = "" ∨ (splitNameAndTags s).2.data.head? = some ';') := by
  by_cases h : s.data.contains ';'
  · have hm : ';' ∈ s.data := List.elem_iff.mp h
    rw [splitNameAndTags, if_pos h]
    refine ⟨?_, ?_, Or.inr rfl⟩
    · show String.mk (s.data.takeWhile (fun ch => ch != ';')
        ++ (';' :: (s.data.dropWhile (fun ch => ch != ';')).tail)) = s
      rw [← dropWhile_head_semicolon s.data hm, List.takeWhile_append_dropWhile]
    · intro hmem
      have := List.mem_takeWhile_imp hmem
      simp at this
  · rw [splitNameAndTags, if_neg h]
    refine ⟨?_, fun hmem => h (List.elem_iff.mpr hmem), Or.inl rfl⟩
    show String.mk (s.data ++ []) = s
    rw [List.append_nil]

/-- C10 witness: the theorem applied to the concrete name "a;b;c". -/
theorem splitNameAndTags_lossless_witness :
    (splitNameAndTags "a;b;c").1 ++ (splitNameAndTags "a;b;c").2 = "a;b;c"
    ∧ ';' ∉ (splitNameAndTags "a;b;c").1.data
    ∧ ((splitNameAndTags "a;b;c").2 = "" ∨ (splitNameAndTags "a;b;c").2.data.head? = some ';') :=
  splitNameAndTags_lossless "a;b;c"
